/-
  Verification of the composition/interval ordering backend
  (Go sources under internal/app and cmd) against its natural-language
  specification.

  The development is a shallow embedding of the Go code:
  * machine integers (`uint`, `int64`) are modelled as `Nat`/`Int`;
  * `time.Time`/`time.Duration` values are abstract instants/durations in `Nat`
    (they are only created, compared and stored, never decomposed);
  * `float64` arithmetic in the classicism helper is modelled by exact
    rationals `ℚ` (the helper only adds, multiplies, divides and takes
    absolute values, so the rational semantics is the formula the code
    implements, without float rounding);
  * fallible Go functions returning `error` become `Except String`;
  * the relational store (gorm) is a list of rows, with `Where`-filters
    translated to boolean predicates and `Updates` to a row-map;
  * the Redis key-value store is a list of (key, value, ttl) entries whose
    keys mirror the three key prefixes of the source (`jwt:blacklist:`,
    `refresh:token:`, `user:session:`), and the HS256 MAC of the JWT
    library is modelled as a perfect MAC (a signature records exactly the
    claims and secret it was computed over).
-/
import Mathlib

namespace BackendRIP

/-! ## Data model: users and JWT claims (internal/app/ds) -/

/-- `ds.Users` (fields used by the token layer). -/
structure Users where
  User_ID : Nat
  Login : String
  Password : String
  IsModerator : Bool
deriving DecidableEq, Repr

/-- `ds.JWTClaims`: embedded `jwt.StandardClaims` fields plus the custom
user fields. `nbf` is never set by this codebase and is omitted (the jwt
library skips the not-before check when it is zero). -/
structure JWTClaims where
  ExpiresAt : Nat
  IssuedAt : Nat
  Issuer : String
  Subject : String
  UserID : Nat
  Login : String
  IsModerator : Bool
deriving DecidableEq, Repr

/-- A signed JWT, with the HS256 MAC modelled as a perfect MAC: the
signature records the exact claims and secret it was produced over, and
verification succeeds iff they match the presented claims and secret. -/
structure SignedToken where
  claims : JWTClaims
  sigClaims : JWTClaims
  sigSecret : String
deriving DecidableEq, Repr

/-! ## TokenCodec (utils: GenerateAccessToken / GenerateRefreshToken /
ValidateToken) -/

/-- `utils.GenerateAccessToken`: claims with expiry `now+expiresIn`,
issued-at `now`, issuer `composition-service`, subject the login, signed
with the shared secret. -/
def GenerateAccessToken (user : Users) (secret : String)
    (expiresIn now : Nat) : SignedToken :=
  let claims : JWTClaims :=
    { ExpiresAt := now + expiresIn
      IssuedAt := now
      Issuer := "composition-service"
      Subject := user.Login
      UserID := user.User_ID
      Login := user.Login
      IsModerator := user.IsModerator }
  { claims := claims, sigClaims := claims, sigSecret := secret }

/-- `utils.GenerateRefreshToken`: identical construction to the access
token (only the caller-chosen TTL differs). -/
def GenerateRefreshToken (user : Users) (secret : String)
    (expiresIn now : Nat) : SignedToken :=
  let claims : JWTClaims :=
    { ExpiresAt := now + expiresIn
      IssuedAt := now
      Issuer := "composition-service"
      Subject := user.Login
      UserID := user.User_ID
      Login := user.Login
      IsModerator := user.IsModerator }
  { claims := claims, sigClaims := claims, sigSecret := secret }

inductive TokenError where
  | invalidSignature
  | expired
deriving DecidableEq, Repr

/-- `jwt.StandardClaims.VerifyExpiresAt` with `required = false`:
a zero expiry skips the check, otherwise the token is valid while
`now ≤ exp`. -/
def verifyExp (exp now : Nat) : Bool :=
  if exp == 0 then true else now ≤ exp

/-- `jwt.StandardClaims.VerifyIssuedAt` with `required = false`. -/
def verifyIat (iat now : Nat) : Bool :=
  if iat == 0 then true else iat ≤ now

/-- `utils.ValidateToken`: `jwt.ParseWithClaims` checks the HS256
signature against the secret and then the standard-claims validity
(expiry and issued-at); any failure is an error, success returns the
parsed claims. -/
def ValidateToken (t : SignedToken) (secret : String) (now : Nat) :
    Except TokenError JWTClaims :=
  if t.sigSecret = secret ∧ t.sigClaims = t.claims then
    if verifyExp t.claims.ExpiresAt now && verifyIat t.claims.IssuedAt now then
      .ok t.claims
    else
      .error .expired
  else
    .error .invalidSignature

/-! ## SessionStore (redis client, part of package redis)

The three key prefixes of the source are distinct, so the key space is the
disjoint sum of blacklisted token strings, per-user refresh-token keys and
per-user session keys. -/

/-- A Redis key as built by the source: `jwt:blacklist:<token>`,
`refresh:token:<userID>` or `user:session:<userID>`. -/
inductive RKey where
  | blacklistKey (token : SignedToken)
  | refreshKey (userID : Nat)
  | sessionKey (userID : Nat)
deriving DecidableEq, Repr

/-- A stored Redis value: a plain string (the blacklist sentinel, a
refresh-token string) or a session hash. The refresh-token value stores
the token itself since token strings are modelled structurally. -/
inductive RVal where
  | vstr (s : String)
  | vtok (t : SignedToken)
  | vsession (userID : Nat) (login : String) (isModerator : Bool)
      (loginTime : Nat) (ipAddress : String)
deriving DecidableEq, Repr

/-- The Redis store: entries `(key, value, ttl)`; `SET` is
last-write-wins per key. -/
structure RedisState where
  entries : List (RKey × RVal × Nat)
deriving DecidableEq, Repr

namespace RedisState

/-- `Client.Set`: store `value` under `key` with `expiration`,
replacing any previous entry for the key. -/
def set (st : RedisState) (key : RKey) (value : RVal) (ttl : Nat) :
    RedisState :=
  { entries := st.entries.filter (fun e => e.1 ≠ key) ++ [(key, value, ttl)] }

/-- `Client.Get`: the value stored under `key`, if any. -/
def get (st : RedisState) (key : RKey) : Option RVal :=
  (st.entries.find? (fun e => e.1 == key)).map (fun e => e.2.1)

/-- The TTL recorded for `key` (for reasoning about expirations). -/
def ttlOf (st : RedisState) (key : RKey) : Option Nat :=
  (st.entries.find? (fun e => e.1 == key)).map (fun e => e.2.2)

/-- `Client.Delete`. -/
def del (st : RedisState) (key : RKey) : RedisState :=
  { entries := st.entries.filter (fun e => e.1 ≠ key) }

/-- `Client.Exists`: whether a key is present. -/
def existsKey (st : RedisState) (key : RKey) : Bool :=
  st.entries.any (fun e => e.1 == key)

end RedisState

/-- `redis.AddToBlacklist`: key `jwt:blacklist:<token>`, sentinel value
`"blacklisted"`, the given TTL. -/
def AddToBlacklist (st : RedisState) (token : SignedToken)
    (expiresIn : Nat) : RedisState :=
  st.set (.blacklistKey token) (.vstr "blacklisted") expiresIn

/-- `redis.IsInBlacklist`: presence of the key `jwt:blacklist:<token>`. -/
def IsInBlacklist (st : RedisState) (token : SignedToken) : Bool :=
  st.existsKey (.blacklistKey token)

/-- `redis.SaveRefreshToken`: key `refresh:token:<userID>`, value the
refresh-token string, the given TTL; overwrites any previous value. -/
def SaveRefreshToken (st : RedisState) (userID : Nat)
    (refreshToken : SignedToken) (expiresIn : Nat) : RedisState :=
  st.set (.refreshKey userID) (.vtok refreshToken) expiresIn

/-- `redis.GetRefreshToken`: the stored refresh token for the user. -/
def GetRefreshToken (st : RedisState) (userID : Nat) : Option RVal :=
  st.get (.refreshKey userID)

/-- `redis.DeleteRefreshToken`. -/
def DeleteRefreshToken (st : RedisState) (userID : Nat) : RedisState :=
  st.del (.refreshKey userID)

/-- `redis.DeleteUserSession`. -/
def DeleteUserSession (st : RedisState) (userID : Nat) : RedisState :=
  st.del (.sessionKey userID)

/-! ## Configuration (internal/app/config) -/

/-- The JWT part of `config.Config` (defaults: 24h access, 168h refresh). -/
structure Config where
  JWTSecret : String
  JWTAccessExpire : Nat
  JWTRefreshExpire : Nat
deriving DecidableEq, Repr

/-! ## AuthGate (internal/app/middleware/auth.go) -/

/-- The `Authorization` header of a request, partitioned exactly as the
middleware tests it: absent, present without the `Bearer ` prefix,
`Bearer ` with an empty token, or a well-formed bearer token. -/
inductive AuthHeader where
  | absent
  | notBearer (raw : String)
  | bearerEmpty
  | bearerToken (t : SignedToken)
deriving DecidableEq, Repr

inductive AuthOutcome where
  | unauthorized (msg : String)
  | authenticated (userID : Nat) (login : String) (isModerator : Bool)
deriving DecidableEq, Repr

/-- `middleware.AuthMiddleware`: header checks, then — when Redis is
available — the blacklist lookup, then signature/expiry validation; on
success the verified identity is attached to the request context
(returned here in `authenticated`). A blacklist lookup error is only
logged and does not reject the request. -/
def AuthMiddleware (redis : Option RedisState) (cfg : Config) (now : Nat)
    (h : AuthHeader) : AuthOutcome :=
  match h with
  | .absent => .unauthorized "Authorization header required"
  | .notBearer _ => .unauthorized "Bearer token required"
  | .bearerEmpty => .unauthorized "Token is empty"
  | .bearerToken t =>
    let inBlacklist :=
      match redis with
      | some st => IsInBlacklist st t
      | none => false
    if inBlacklist then
      .unauthorized "Token is invalidated"
    else
      match ValidateToken t cfg.JWTSecret now with
      | .error _ => .unauthorized "Invalid token"
      | .ok claims => .authenticated claims.UserID claims.Login claims.IsModerator

/-! ## UserHandler.Logout and UserHandler.RefreshToken
(internal/app/handler/user.go) -/

/-- `UserHandler.Logout`, Redis-available path after the header has been
parsed into a bearer token: the raw access token is blacklisted with TTL
`cfg.JWTAccessExpire`, then — when the middleware put a user id in the
context — the session and the refresh token of that user are deleted. -/
def Logout (st : RedisState) (cfg : Config) (token : SignedToken)
    (ctxUserID : Option Nat) : RedisState :=
  let st1 := AddToBlacklist st token cfg.JWTAccessExpire
  let st2 :=
    match ctxUserID with
    | some uid => DeleteUserSession st1 uid
    | none => st1
  match ctxUserID with
  | some uid => DeleteRefreshToken st2 uid
  | none => st2

inductive RefreshOutcome where
  | unauthorized (msg : String)
  | okTokens (accessToken refreshToken : SignedToken)
deriving DecidableEq, Repr

/-- `repository.UserRepository.GetUserByID`, modelled over a user table. -/
def GetUserByID (users : List Users) (userID : Nat) : Except String Users :=
  match users.find? (fun u => u.User_ID == userID) with
  | some u => .ok u
  | none => .error "record not found"

/-- `UserHandler.RefreshToken`: validate the presented refresh token,
compare it with the stored per-subject value (when Redis is available),
reload the user, then issue fresh tokens and overwrite the stored
refresh token with the new one. Returns the outcome and the updated
store. -/
def RefreshToken (redis : Option RedisState) (cfg : Config)
    (users : List Users) (reqRefreshToken : SignedToken) (now : Nat) :
    RefreshOutcome × Option RedisState :=
  match ValidateToken reqRefreshToken cfg.JWTSecret now with
  | .error _ => (.unauthorized "Invalid refresh token", redis)
  | .ok claims =>
    let storedOk :=
      match redis with
      | some st => GetRefreshToken st claims.UserID == some (.vtok reqRefreshToken)
      | none => true
    if !storedOk then
      (.unauthorized "Refresh token not found", redis)
    else
      match GetUserByID users claims.UserID with
      | .error _ => (.unauthorized "User not found", redis)
      | .ok user =>
        let accessToken := GenerateAccessToken user cfg.JWTSecret cfg.JWTAccessExpire now
        let refreshToken := GenerateRefreshToken user cfg.JWTSecret cfg.JWTRefreshExpire now
        let redis2 :=
          match redis with
          | some st =>
            some (SaveRefreshToken st user.User_ID refreshToken cfg.JWTRefreshExpire)
          | none => none
        (.okTokens accessToken refreshToken, redis2)

/-! ## Data model: compositions, items and catalog intervals
(internal/app/ds; the `Composition` and `CompositorInterval` struct files
are not under src/, their fields are those read and written by the
repository and handlers and listed in the spec data model). -/

/-- `ds.Composition` rows, with the column names used by the update
maps. `belonging` is a plain string column (cleared by storing `""`),
`date_finish` is nullable (`sql.NullTime`). -/
structure Composition where
  id : Nat
  creator_id : Nat
  moderator_id : Option Nat
  status : String
  belonging : String
  title : String
  date_create : Nat
  date_update : Nat
  date_finish : Option Nat
deriving DecidableEq, Repr

/-- `ds.CompositorInterval` (m-m association rows). -/
structure CompositorInterval where
  composition_id : Nat
  interval_id : Nat
  amount : Nat
deriving DecidableEq, Repr

/-- `ds.Interval` (catalog item). -/
structure Interval where
  id : Nat
  is_delete : Bool
  photo : String
  title : String
  description : String
  tone : ℚ
deriving DecidableEq, Repr

/-- The relational store: one list per table. Lists are kept in
primary-key order, so gorm `First` is `find?` and `Order(id ASC)` is the
identity. -/
structure DB where
  compositions : List Composition
  compositor_intervals : List CompositorInterval
  intervals : List Interval
deriving DecidableEq, Repr

/-! ## gorm `Updates` over a `map[string]interface{}` -/

/-- A value stored in an update map: a string, a `uint`, a `time.Time`,
or `gorm.Expr("NULL")`. -/
inductive FieldValue where
  | vstr (s : String)
  | vnat (n : Nat)
  | vtime (t : Nat)
  | vnull
deriving DecidableEq, Repr

/-- Applying one update-map entry to a composition row: the key selects
the column, exactly as the SQL `UPDATE ... SET` generated by gorm would;
an entry whose key is no column (or whose value has the wrong shape) is
a no-op here, standing for the malformed updates no call site builds. -/
def applyField (c : Composition) (kv : String × FieldValue) : Composition :=
  if kv.1 = "id" then
    match kv.2 with | .vnat n => { c with id := n } | _ => c
  else if kv.1 = "creator_id" then
    match kv.2 with | .vnat n => { c with creator_id := n } | _ => c
  else if kv.1 = "moderator_id" then
    match kv.2 with | .vnat n => { c with moderator_id := some n } | _ => c
  else if kv.1 = "status" then
    match kv.2 with | .vstr s => { c with status := s } | _ => c
  else if kv.1 = "belonging" then
    match kv.2 with | .vstr s => { c with belonging := s } | _ => c
  else if kv.1 = "title" then
    match kv.2 with | .vstr s => { c with title := s } | _ => c
  else if kv.1 = "date_create" then
    match kv.2 with | .vtime t => { c with date_create := t } | _ => c
  else if kv.1 = "date_update" then
    match kv.2 with | .vtime t => { c with date_update := t } | _ => c
  else if kv.1 = "date_finish" then
    match kv.2 with
    | .vtime t => { c with date_finish := some t }
    | .vnull => { c with date_finish := none }
    | _ => c
  else c

/-- `db.Model(&Composition{}).Where(p).Updates(us)`: the number of
affected rows and the table with every matching row updated. -/
def updatesRun (db : DB) (p : Composition → Bool)
    (us : List (String × FieldValue)) : Nat × DB :=
  ((db.compositions.filter p).length,
   { db with compositions :=
       db.compositions.map (fun c => if p c then us.foldl applyField c else c) })

/-! ## CompositionIntervalRepository (repository, composition domain) -/

/-- `CompositionIntervalRepository.GetComposition` (row lookup; the
handler claims only use existence, not the preloads). -/
def GetComposition (db : DB) (id : Nat) : Except String Composition :=
  match db.compositions.find? (fun c => c.id == id) with
  | some c => .ok c
  | none => .error "record not found"

/-- `CompositionIntervalRepository.UpdateCompositionFields`: strips the
immutable keys `id`, `creator_id` and `date_create` from the update map,
stamps `date_update` with now, applies the rest to the row with the
given id, and surfaces zero affected rows as a not-found error. -/
def UpdateCompositionFields (db : DB) (id : Nat)
    (updates : List (String × FieldValue)) (now : Nat) : Except String DB :=
  let stripped := updates.filter
    (fun kv => kv.1 ≠ "id" && kv.1 ≠ "creator_id" && kv.1 ≠ "date_create")
  let withStamp := stripped ++ [("date_update", FieldValue.vtime now)]
  let r := updatesRun db (fun c => c.id == id) withStamp
  if r.1 == 0 then
    .error ("composition with id " ++ toString id ++ " not found")
  else
    .ok r.2

/-- `CompositionIntervalRepository.FormComposition`: requires a row with
this id, this creator and status `Черновик` (Draft) and at least one
associated interval; then sets status `Сформирована` (Formed), stamps
`date_update` and nulls `date_finish`. -/
def FormComposition (db : DB) (id creatorID now : Nat) : Except String DB :=
  match db.compositions.find?
      (fun c => c.id == id && c.creator_id == creatorID && c.status == "Черновик") with
  | none => .error "composition not found or not in draft status"
  | some _ =>
    let intervalCount :=
      (db.compositor_intervals.filter (fun ci => ci.composition_id == id)).length
    if intervalCount == 0 then
      .error "at least one interval must be added to the composition"
    else
      let us : List (String × FieldValue) :=
        [("status", .vstr "Сформирована"), ("date_update", .vtime now),
         ("date_finish", .vnull)]
      let r := updatesRun db (fun c => c.id == id) us
      if r.1 == 0 then
        .error ("composition with id " ++ toString id ++ " not found")
      else
        .ok r.2

/-- `CompositionIntervalRepository.CompleteComposition`: after the
status-string check, the source assigns the result of
`r.db.Where("id = ? AND status = ?", id, "Сформирована").First(&composition)`
directly to `err` without taking `.Error`; `First` returns the `*gorm.DB`
handle, which is never nil, so the guard `if err != nil` always fires and
the function returns the not-found error before ever reaching the update,
whatever the table contains. -/
def CompleteComposition (db : DB) (id moderatorID : Nat) (status : String) :
    Except String DB :=
  if status ≠ "Завершена" ∧ status ≠ "Отклонена" then
    .error "invalid status transition"
  else
    .error "composition not found or not in formed status"

/-! ## CompositionHandler (handler, composition domain; the
authenticated version wired up by `RegisterHandlers`). -/

namespace CompositionHandler

/-- `CompositionHandler.CompleteComposition` (handler body after the id
has parsed and the middleware supplied the moderator id): it performs no
status check of its own and does not call the repository
`CompleteComposition`; it directly writes status `Завершена`
(Completed), the moderator id, both timestamps and an empty `belonging`
through `UpdateCompositionFields`. The detached Django notification it
then spawns has no effect on this state. -/
def CompleteComposition (db : DB) (id moderatorID now : Nat) :
    Except String DB :=
  let updates : List (String × FieldValue) :=
    [("status", .vstr "Завершена"), ("moderator_id", .vnat moderatorID),
     ("date_update", .vtime now), ("date_finish", .vtime now),
     ("belonging", .vstr "")]
  UpdateCompositionFields db id updates now

/-- The JSON body of the calculation callback. -/
structure CalculationResultRequest where
  CompositionID : Nat
  Result : String
  APIKey : String
deriving DecidableEq, Repr

inductive CallbackOutcome where
  | badRequest (msg : String)
  | unauthorizedKey (msg : String)
  | notFound (msg : String)
  | internalError (msg : String)
  | okResult (compositionID : Nat) (result : String)
deriving DecidableEq, Repr

/-- `CompositionHandler.ReceiveCalculationResult`: static shared-secret
check (`SECRET123`), then validation that the result is one of the two
classification strings, then existence of the composition, then an
update of `belonging` (plus the `date_update` stamp) through
`UpdateCompositionFields`. -/
def ReceiveCalculationResult (db : DB) (req : CalculationResultRequest)
    (now : Nat) : CallbackOutcome × DB :=
  if req.APIKey ≠ "SECRET123" then
    (.unauthorizedKey "Неверный API ключ", db)
  else if req.Result ≠ "принадлежит" ∧ req.Result ≠ "не принадлежит" then
    (.badRequest "Неверное значение результата", db)
  else
    match GetComposition db req.CompositionID with
    | .error _ => (.notFound "Композиция не найдена", db)
    | .ok _ =>
      match UpdateCompositionFields db req.CompositionID
          [("belonging", .vstr req.Result)] now with
      | .error _ => (.internalError "Ошибка при обновлении результата", db)
      | .ok db2 => (.okResult req.CompositionID req.Result, db2)

end CompositionHandler

/-! ## Classicism affinity helper
(`CompositionIntervalRepository.calculateClassicismCoefficient`) -/

/-- The `Tone` of the interval preloaded into an association row; a
dangling reference preloads the zero-value struct, whose tone is 0. -/
def intervalTone (db : DB) (ci : CompositorInterval) : ℚ :=
  match db.intervals.find? (fun iv => iv.id == ci.interval_id) with
  | some iv => iv.tone
  | none => 0

/-- `calculateClassicismCoefficient`: over the composition's items,
`μ = Σ(tone_i × amount_i) / Σ(amount_i)` and `S = 1 / (1 + |μ − 2.82|)`,
returned as `(S, μ)`; `(0, 0)` when there are no items or the amounts
sum to zero. The source's `float64` arithmetic is modelled by exact
rationals. -/
def calculateClassicismCoefficient (db : DB) (compositionID : Nat) :
    ℚ × ℚ :=
  let items := db.compositor_intervals.filter
    (fun ci => ci.composition_id == compositionID)
  if items.length == 0 then (0, 0)
  else
    let totalTones : ℚ :=
      items.foldl (fun acc it => acc + intervalTone db it * (it.amount : ℚ)) 0
    let totalIntervals : Nat := items.foldl (fun acc it => acc + it.amount) 0
    if totalIntervals == 0 then (0, 0)
    else
      let mu : ℚ := totalTones / (totalIntervals : ℚ)
      let muG : ℚ := 282 / 100
      let S : ℚ := 1 / (1 + |mu - muG|)
      (S, mu)

/-! ## IntervalRepository.GetIntervals and the interval listing handler -/

/-- `ds.PaginationInfo`. -/
structure PaginationInfo where
  Page : Int
  PageSize : Int
  Total : Int
  TotalPages : Int
deriving DecidableEq, Repr

/-- `LOWER(title) LIKE LOWER('%pat%')`: case-insensitive substring. -/
def likeContains (field pat : String) : Bool :=
  decide (pat.toLower.toList <:+: field.toLower.toList)

namespace IntervalRepository

/-- `IntervalRepository.GetIntervals`: clamps `pageSize` into `[1,8]`
(default 8) and `page` up to 1, filters out soft-deleted rows, applies
the optional title/tone filters, and returns the page
`[(page−1)·pageSize, +pageSize)` of the matching rows in id order
together with the pagination metadata. -/
def GetIntervals (db : DB) (title : String) (toneMin toneMax : ℚ)
    (page pageSize : Int) : List Interval × PaginationInfo :=
  let pageSize1 : Int := if pageSize ≤ 0 then 8 else pageSize
  let pageSize2 : Int := if pageSize1 > 8 then 8 else pageSize1
  let page1 : Int := if page < 1 then 1 else page
  let rows := db.intervals.filter (fun iv =>
    iv.is_delete == false
    && (title == "" || likeContains iv.title title)
    && (!decide (0 < toneMin) || decide (toneMin ≤ iv.tone))
    && (!decide (0 < toneMax) || decide (iv.tone ≤ toneMax)))
  let total : Int := rows.length
  let offset : Int := (page1 - 1) * pageSize2
  let pageRows := (rows.drop offset.toNat).take pageSize2.toNat
  let totalPages : Int :=
    if 0 < total ∧ 0 < pageSize2 then (total + pageSize2 - 1) / pageSize2 else 0
  (pageRows,
   { Page := page1, PageSize := pageSize2, Total := total,
     TotalPages := totalPages })

end IntervalRepository

namespace IntervalHandler

/-- `IntervalHandler.GetIntervals`, pagination-parameter handling: the
`page` query defaults to 1 when absent or unparsable and is clamped up
to 1; `page_size` defaults to 8 when absent or unparsable, is replaced
by 8 when below 1 and clamped down to 8 above 8; then the repository
query runs. `none` stands for an absent or unparsable query value. -/
def GetIntervals (db : DB) (title : String) (toneMin toneMax : ℚ)
    (pageQ pageSizeQ : Option Int) : List Interval × PaginationInfo :=
  let page : Int :=
    match pageQ with
    | none => 1
    | some p => if p < 1 then 1 else p
  let pageSize : Int :=
    match pageSizeQ with
    | none => 8
    | some s => if s < 1 then 8 else s
  let pageSize : Int := if pageSize > 8 then 8 else pageSize
  IntervalRepository.GetIntervals db title toneMin toneMax page pageSize

end IntervalHandler

/-! ## Store lemmas -/

lemma find?_filterNe_append (l : List (RKey × RVal × Nat)) (k : RKey)
    (v : RVal) (ttl : Nat) :
    ((l.filter (fun e => e.1 ≠ k)) ++ [(k, v, ttl)]).find?
      (fun e => e.1 == k) = some (k, v, ttl) := by
  induction l with
  | nil => simp [List.find?]
  | cons e l ih =>
    rw [List.filter_cons]
    by_cases h : e.1 = k
    · rw [if_neg (by simp [h])]
      exact ih
    · rw [if_pos (by simp [h]), List.cons_append,
        List.find?_cons_of_neg _ (by simp [h])]
      exact ih

lemma find?_filterNe_of_ne (l : List (RKey × RVal × Nat)) (k k2 : RKey)
    (h : k2 ≠ k) :
    (l.filter (fun e => e.1 ≠ k)).find? (fun e => e.1 == k2) =
      l.find? (fun e => e.1 == k2) := by
  induction l with
  | nil => rfl
  | cons e l ih =>
    rw [List.filter_cons]
    by_cases he : e.1 = k
    · have he2 : (e.1 == k2) = false := by
        simp only [beq_eq_false_iff_ne]
        rw [he]
        exact fun hk => h hk.symm
      rw [if_neg (by simp [he]), List.find?_cons_of_neg _ (by simp [he2])]
      exact ih
    · by_cases he2 : e.1 = k2
      · rw [if_pos (by simp [he]), List.find?_cons_of_pos _ (by simp [he2]),
          List.find?_cons_of_pos _ (by simp [he2])]
      · rw [if_pos (by simp [he]), List.find?_cons_of_neg _ (by simp [he2]),
          List.find?_cons_of_neg _ (by simp [he2])]
        exact ih

lemma RedisState.get_set_self (st : RedisState) (k : RKey) (v : RVal)
    (ttl : Nat) : (st.set k v ttl).get k = some v := by
  simp only [RedisState.set, RedisState.get]
  rw [find?_filterNe_append]
  rfl

lemma RedisState.get_set_other (st : RedisState) (k k2 : RKey) (v : RVal)
    (ttl : Nat) (h : k2 ≠ k) : (st.set k v ttl).get k2 = st.get k2 := by
  have hsent : (((k, v, ttl) : RKey × RVal × Nat).1 == k2) = false := by
    simp only [beq_eq_false_iff_ne]
    exact fun hk => h hk.symm
  simp only [RedisState.set, RedisState.get, List.find?_append,
    find?_filterNe_of_ne _ _ _ h, List.find?_singleton]
  cases st.entries.find? (fun e => e.1 == k2) with
  | none => simp [hsent]
  | some e => rfl

lemma RedisState.ttlOf_set_self (st : RedisState) (k : RKey) (v : RVal)
    (ttl : Nat) : (st.set k v ttl).ttlOf k = some ttl := by
  simp only [RedisState.set, RedisState.ttlOf]
  rw [find?_filterNe_append]
  rfl

lemma RedisState.ttlOf_set_other (st : RedisState) (k k2 : RKey) (v : RVal)
    (ttl : Nat) (h : k2 ≠ k) : (st.set k v ttl).ttlOf k2 = st.ttlOf k2 := by
  have hsent : (((k, v, ttl) : RKey × RVal × Nat).1 == k2) = false := by
    simp only [beq_eq_false_iff_ne]
    exact fun hk => h hk.symm
  simp only [RedisState.set, RedisState.ttlOf, List.find?_append,
    find?_filterNe_of_ne _ _ _ h, List.find?_singleton]
  cases st.entries.find? (fun e => e.1 == k2) with
  | none => simp [hsent]
  | some e => rfl

lemma RedisState.ttlOf_del_other (st : RedisState) (k k2 : RKey)
    (h : k2 ≠ k) : (st.del k).ttlOf k2 = st.ttlOf k2 := by
  simp only [RedisState.del, RedisState.ttlOf, find?_filterNe_of_ne _ _ _ h]

lemma RedisState.get_del_other (st : RedisState) (k k2 : RKey)
    (h : k2 ≠ k) : (st.del k).get k2 = st.get k2 := by
  simp only [RedisState.del, RedisState.get, find?_filterNe_of_ne _ _ _ h]

/-! ## Token-codec lemmas -/

lemma verifyExp_true_of_le (exp now : Nat) (h : now ≤ exp) :
    verifyExp exp now = true := by
  unfold verifyExp
  split <;> simp [h]

lemma verifyExp_false_of_lt (exp now : Nat) (h0 : exp ≠ 0) (h : exp < now) :
    verifyExp exp now = false := by
  unfold verifyExp
  rw [if_neg (by simpa using h0)]
  simpa using Nat.not_le.mpr h

lemma verifyIat_true_of_le (iat now : Nat) (h : iat ≤ now) :
    verifyIat iat now = true := by
  unfold verifyIat
  split <;> simp [h]

/-! ## Concrete fixtures for witnesses and counterexamples -/

/-- A sample user. -/
def userEx : Users :=
  { User_ID := 7, Login := "alice", Password := "pw", IsModerator := false }

/-- A sample configuration with the default TTLs (24h access, 168h
refresh, in seconds). -/
def cfgEx : Config :=
  { JWTSecret := "secret", JWTAccessExpire := 86400,
    JWTRefreshExpire := 604800 }

/-- An access token for `userEx` issued at time 0, expiring at 86400. -/
def tokEx : SignedToken := GenerateAccessToken userEx "secret" 86400 0

/-- A refresh token for `userEx` issued at time 0, expiring at 604800. -/
def tokEx2 : SignedToken := GenerateRefreshToken userEx "secret" 604800 0

/-- An empty Redis store. -/
def emptyStore : RedisState := { entries := [] }

/-- A store whose blacklist contains `tokEx`. -/
def blkStore : RedisState := AddToBlacklist emptyStore tokEx 86400

/-! ## C3 -/

/-- C3: for every request carrying a bearer token present in the
revocation list, the auth middleware rejects the request as Unauthorized
("Token is invalidated") even when the token validates — valid
signature, expiry in the future — because the blacklist lookup runs
before, and independently of, `ValidateToken`; the session store is
available (`some st`). -/
theorem C3_blacklisted_token_rejected (st : RedisState) (cfg : Config)
    (now : Nat) (t : SignedToken)
    (hbl : IsInBlacklist st t = true)
    (hvalid : ∃ c, ValidateToken t cfg.JWTSecret now = .ok c) :
    AuthMiddleware (some st) cfg now (.bearerToken t) =
      .unauthorized "Token is invalidated" := by
  simp [AuthMiddleware, hbl]

/-- Witness for C3: a concrete valid, unexpired, blacklisted token is
rejected. -/
theorem C3_blacklisted_token_rejected_witness :
    AuthMiddleware (some blkStore) cfgEx 50 (.bearerToken tokEx) =
      .unauthorized "Token is invalidated" :=
  C3_blacklisted_token_rejected blkStore cfgEx 50 tokEx (by decide)
    ⟨tokEx.claims, rfl⟩

/-! ## C5 -/

/-- C5: verifying a token issued for an identity with the same shared
secret yields the identity's claims (subject id, login, moderator flag)
at any time from issuance up to the expiry instant; once the expiry is
in the past, verification fails, as it does under a signature mismatch
(wrong secret). The TTL is positive, and verification does not happen
before issuance. -/
theorem C5_issue_verify_roundtrip (user : Users) (secret : String)
    (ttl issueTime now : Nat) (httl : 0 < ttl) (hiat : issueTime ≤ now) :
    (now ≤ issueTime + ttl →
      ∃ c, ValidateToken (GenerateAccessToken user secret ttl issueTime)
            secret now = .ok c ∧
        c.UserID = user.User_ID ∧ c.Login = user.Login ∧
        c.IsModerator = user.IsModerator)
    ∧ (issueTime + ttl < now →
        ValidateToken (GenerateAccessToken user secret ttl issueTime)
          secret now = .error .expired)
    ∧ (∀ secret2, secret2 ≠ secret →
        ValidateToken (GenerateAccessToken user secret ttl issueTime)
          secret2 now = .error .invalidSignature) := by
  refine ⟨?_, ?_, ?_⟩
  · intro h1
    refine ⟨⟨issueTime + ttl, issueTime, "composition-service", user.Login,
      user.User_ID, user.Login, user.IsModerator⟩, ?_, rfl, rfl, rfl⟩
    simp [ValidateToken, GenerateAccessToken,
      verifyExp_true_of_le _ _ h1, verifyIat_true_of_le _ _ hiat]
  · intro h1
    simp [ValidateToken, GenerateAccessToken,
      verifyExp_false_of_lt _ _ (by omega) h1]
  · intro secret2 h2
    simp [ValidateToken, GenerateAccessToken]
    intro h
    exact absurd h.symm h2

/-- Witness for C5: a concrete token round-trips before expiry. -/
theorem C5_issue_verify_roundtrip_witness :
    ∃ c, ValidateToken (GenerateAccessToken userEx "secret" 86400 0)
          "secret" 50 = .ok c ∧
      c.UserID = userEx.User_ID ∧ c.Login = userEx.Login ∧
      c.IsModerator = userEx.IsModerator :=
  (C5_issue_verify_roundtrip userEx "secret" 86400 0 50 (by decide)
    (by decide)).1 (by decide)

/-! ## C4 -/

/-- C4 counterexample: the claim says the revocation entry written at
logout carries a TTL equal to the token's remaining lifetime. Concretely
`tokEx` expires at 86400; at logout time 86395 its remaining lifetime is
5 seconds, yet the entry is stored with TTL 86400, the full configured
access-token lifetime. -/
theorem C4_ttl_counterexample :
    (Logout emptyStore cfgEx tokEx (some 7)).ttlOf (.blacklistKey tokEx) =
      some 86400
    ∧ tokEx.claims.ExpiresAt - 86395 = 5
    ∧ (Logout emptyStore cfgEx tokEx (some 7)).ttlOf (.blacklistKey tokEx)
        ≠ some 5 := by
  decide

/-- C4 (amended): for every logout, the revocation entry for the access
token is stored with a TTL equal to the full configured access-token
lifetime (`cfg.JWTAccessExpire`), not the token's remaining lifetime. -/
theorem C4_blacklist_ttl_full_lifetime (st : RedisState) (cfg : Config)
    (token : SignedToken) (ctxUserID : Option Nat) :
    (Logout st cfg token ctxUserID).ttlOf (.blacklistKey token) =
      some cfg.JWTAccessExpire := by
  unfold Logout AddToBlacklist DeleteUserSession DeleteRefreshToken
  cases ctxUserID with
  | none =>
    exact RedisState.ttlOf_set_self st _ _ _
  | some uid =>
    rw [RedisState.ttlOf_del_other _ _ _ (fun h => RKey.noConfusion h),
      RedisState.ttlOf_del_other _ _ _ (fun h => RKey.noConfusion h),
      RedisState.ttlOf_set_self]

/-! ## C6 -/

/-- C6: the refresh-token record is keyed by subject id: saving a new
refresh token for a subject (as both login and the refresh operation do)
overwrites the stored value, a subsequent lookup returns only the most
recently saved token and no longer matches any prior one, and records of
other subjects are untouched. -/
theorem C6_refresh_token_overwrite (st : RedisState) (uid : Nat)
    (t1 t2 : SignedToken) (e1 e2 : Nat) (hne : t1 ≠ t2) :
    GetRefreshToken
        (SaveRefreshToken (SaveRefreshToken st uid t1 e1) uid t2 e2) uid =
      some (.vtok t2)
    ∧ GetRefreshToken
        (SaveRefreshToken (SaveRefreshToken st uid t1 e1) uid t2 e2) uid ≠
      some (.vtok t1)
    ∧ (∀ uid2, uid2 ≠ uid →
        GetRefreshToken (SaveRefreshToken st uid t2 e2) uid2 =
          GetRefreshToken st uid2) := by
  refine ⟨?_, ?_, ?_⟩
  · simp only [GetRefreshToken, SaveRefreshToken]
    exact RedisState.get_set_self _ _ _ _
  · simp only [GetRefreshToken, SaveRefreshToken,
      RedisState.get_set_self]
    intro h
    injection h with h2
    exact hne (by injection h2 with h3; exact h3.symm)
  · intro uid2 h
    simp only [GetRefreshToken, SaveRefreshToken]
    exact RedisState.get_set_other _ _ _ _ _
      (fun hk => h (by injection hk))

/-- Witness for C6: a concrete overwrite of a subject's refresh token. -/
theorem C6_refresh_token_overwrite_witness :
    GetRefreshToken
        (SaveRefreshToken (SaveRefreshToken emptyStore 7 tokEx 10) 7
          tokEx2 20) 7 = some (.vtok tokEx2)
    ∧ GetRefreshToken
        (SaveRefreshToken (SaveRefreshToken emptyStore 7 tokEx 10) 7
          tokEx2 20) 7 ≠ some (.vtok tokEx)
    ∧ (∀ uid2, uid2 ≠ 7 →
        GetRefreshToken (SaveRefreshToken emptyStore 7 tokEx2 20) uid2 =
          GetRefreshToken emptyStore uid2) :=
  C6_refresh_token_overwrite emptyStore 7 tokEx tokEx2 10 20 (by decide)

/-! ## Update-map lemmas -/

lemma applyField_keeps_immutable (c : Composition) (k : String)
    (v : FieldValue) (h1 : k ≠ "id") (h2 : k ≠ "creator_id")
    (h3 : k ≠ "date_create") :
    (applyField c (k, v)).id = c.id ∧
    (applyField c (k, v)).creator_id = c.creator_id ∧
    (applyField c (k, v)).date_create = c.date_create := by
  unfold applyField
  split_ifs <;> (try cases v) <;> simp_all

lemma foldl_applyField_keeps_immutable (us : List (String × FieldValue))
    (c : Composition)
    (h : ∀ kv ∈ us, kv.1 ≠ "id" ∧ kv.1 ≠ "creator_id" ∧ kv.1 ≠ "date_create") :
    (us.foldl applyField c).id = c.id ∧
    (us.foldl applyField c).creator_id = c.creator_id ∧
    (us.foldl applyField c).date_create = c.date_create := by
  induction us generalizing c with
  | nil => exact ⟨rfl, rfl, rfl⟩
  | cons kv us ih =>
    have hkv := h kv (List.mem_cons_self _ _)
    have hrest := fun kv2 hm => h kv2 (List.mem_cons_of_mem _ hm)
    have hone := applyField_keeps_immutable c kv.1 kv.2 hkv.1 hkv.2.1 hkv.2.2
    have htail := ih (applyField c kv) hrest
    rw [List.foldl_cons]
    exact ⟨htail.1.trans hone.1, htail.2.1.trans hone.2.1,
      htail.2.2.trans hone.2.2⟩

/-! ## C8 -/

/-- C8: for every call of the composition field-update operation, any
`id`, `creator_id` or `date_create` entries in the update map are
stripped before the update is applied, so those three fields of every
row are unchanged in any successful result; and when no row carries the
targeted id the operation returns the not-found error instead of
silently succeeding. -/
theorem C8_update_fields_frame (db : DB) (id : Nat)
    (updates : List (String × FieldValue)) (now : Nat) :
    (∀ db2, UpdateCompositionFields db id updates now = .ok db2 →
      db2.compositions.map (fun c => (c.id, c.creator_id, c.date_create)) =
        db.compositions.map (fun c => (c.id, c.creator_id, c.date_create)))
    ∧ ((∀ c ∈ db.compositions, c.id ≠ id) →
        UpdateCompositionFields db id updates now =
          .error ("composition with id " ++ toString id ++ " not found")) := by
  constructor
  · intro db2 hok
    simp only [UpdateCompositionFields, updatesRun] at hok
    by_cases hz :
        ((db.compositions.filter (fun c => c.id == id)).length == 0) = true
    · rw [if_pos hz] at hok
      cases hok
    · rw [if_neg hz] at hok
      injection hok with hok
      subst hok
      simp only [List.map_map]
      apply List.map_congr_left
      intro c _
      simp only [Function.comp_apply]
      by_cases hc : (c.id == id) = true
      · rw [if_pos hc]
        have hkeys : ∀ kv ∈ (updates.filter (fun kv =>
              kv.1 ≠ "id" && kv.1 ≠ "creator_id" && kv.1 ≠ "date_create"))
              ++ [("date_update", FieldValue.vtime now)],
            kv.1 ≠ "id" ∧ kv.1 ≠ "creator_id" ∧ kv.1 ≠ "date_create" := by
          intro kv hm
          rcases List.mem_append.mp hm with hm1 | hm2
          · have hp := (List.mem_filter.mp hm1).2
            simp only [Bool.and_eq_true, decide_eq_true_eq, ne_eq] at hp
            exact ⟨hp.1.1, hp.1.2, hp.2⟩
          · have hkv : kv = ("date_update", FieldValue.vtime now) := by
              simpa using hm2
            subst hkv
            exact ⟨by simp, by simp, by simp⟩
        have hT := foldl_applyField_keeps_immutable _ c hkeys
        rw [hT.1, hT.2.1, hT.2.2]
      · rw [if_neg hc]
  · intro hall
    simp only [UpdateCompositionFields, updatesRun]
    have hfil : db.compositions.filter (fun c => c.id == id) = [] := by
      apply List.filter_eq_nil_iff.mpr
      intro c hc
      simpa using hall c hc
    simp [hfil]

/-- A draft composition of creator 10 used in concrete runs. -/
def compDraft : Composition :=
  { id := 1, creator_id := 10, moderator_id := none, status := "Черновик",
    belonging := "", title := "t", date_create := 5, date_update := 5,
    date_finish := none }

/-- A formed composition of creator 10. -/
def compFormed : Composition :=
  { compDraft with status := "Сформирована" }

/-- A table holding the single draft composition and one association. -/
def dbDraft : DB :=
  { compositions := [compDraft],
    compositor_intervals := [⟨1, 1, 1⟩],
    intervals := [] }

/-- A table holding the single formed composition and one association. -/
def dbFormed : DB :=
  { compositions := [compFormed],
    compositor_intervals := [⟨1, 1, 1⟩],
    intervals := [] }

/-- The table `dbDraft` after a title update stamped at time 9. -/
def dbDraftRetitled : DB :=
  { dbDraft with compositions :=
      [{ compDraft with title := "x", date_update := 9 }] }

/-- Witness for C8: a concrete update trying to overwrite `id`,
`creator_id` and `date_create` leaves all three unchanged, and updating
a missing id errors. -/
theorem C8_update_fields_frame_witness :
    (UpdateCompositionFields dbDraft 1
        [("id", .vnat 99), ("creator_id", .vnat 99),
         ("date_create", .vtime 99), ("title", .vstr "x")] 9 =
      .ok dbDraftRetitled)
    ∧ dbDraftRetitled.compositions.map
        (fun c => (c.id, c.creator_id, c.date_create)) =
        dbDraft.compositions.map (fun c => (c.id, c.creator_id, c.date_create))
    ∧ UpdateCompositionFields dbDraft 5 [] 0 =
        .error ("composition with id " ++ toString 5 ++ " not found") :=
  ⟨rfl,
   (C8_update_fields_frame dbDraft 1
      [("id", .vnat 99), ("creator_id", .vnat 99),
       ("date_create", .vtime 99), ("title", .vstr "x")] 9).1
     dbDraftRetitled rfl,
   (C8_update_fields_frame dbDraft 5 [] 0).2 (by decide)⟩

/-! ## C1 -/

/-- What the handler writes into the draft composition when it is
"completed" at time 77 by moderator 2: status `Завершена`, moderator id,
both timestamps and an emptied belonging. -/
def dbDraftCompleted : DB :=
  { dbDraft with compositions :=
      [{ compDraft with
          status := "Завершена"
          moderator_id := some 2
          date_update := 77
          date_finish := some 77
          belonging := "" }] }

/-- C1: what the code actually does on complete. The repository
`CompleteComposition` returns the not-found/not-formed error even when
the targeted composition is in status `Сформирована` (Formed), because
the `First` result is tested without `.Error` and is never nil; and the
routed handler `CompositionHandler.CompleteComposition` performs no
status check at all, so it completes a composition that is still a
`Черновик` (Draft), mutating it to `Завершена` (Completed) with
moderator id, timestamps and cleared belonging — no InvalidTransition is
produced in either case. -/
theorem C1_complete_code_behavior :
    CompleteComposition dbFormed 1 2 "Завершена" =
      .error "composition not found or not in formed status"
    ∧ CompositionHandler.CompleteComposition dbDraft 1 2 77 =
        .ok dbDraftCompleted :=
  ⟨rfl, rfl⟩

/-! ## C2 -/

/-- The effect of the form-update map on one row. -/
lemma foldl_applyField_form (a : Composition) (now : Nat) :
    ([(("status" : String), FieldValue.vstr "Сформирована"),
      ("date_update", FieldValue.vtime now),
      ("date_finish", FieldValue.vnull)].foldl applyField a) =
    { a with
      status := "Сформирована"
      date_update := now
      date_finish := none } := rfl

/-- C2: for a composition in `Черновик` (Draft) owned by the calling
creator (the source's `First` on id + creator + Draft finds a row), form
fails when the composition has zero associated items, and succeeds when
at least one item is present, setting status `Сформирована` (Formed) and
clearing `date_finish`; and when no row matches the id with this creator
and Draft status — the composition is missing, not a Draft, or not this
creator's — form fails with the not-in-draft error. -/
theorem C2_form_composition (db : DB) (id creatorID now : Nat) :
    (∀ c0, db.compositions.find?
        (fun c => c.id == id && c.creator_id == creatorID &&
          c.status == "Черновик") = some c0 →
      (((db.compositor_intervals.filter
            (fun ci => ci.composition_id == id)).length = 0 →
        FormComposition db id creatorID now =
          .error "at least one interval must be added to the composition")
      ∧ (0 < (db.compositor_intervals.filter
            (fun ci => ci.composition_id == id)).length →
        ∃ db2, FormComposition db id creatorID now = .ok db2 ∧
          ∀ c2 ∈ db2.compositions, c2.id = id →
            c2.status = "Сформирована" ∧ c2.date_finish = none)))
    ∧ ((∀ c ∈ db.compositions,
          ¬(c.id = id ∧ c.creator_id = creatorID ∧ c.status = "Черновик")) →
        FormComposition db id creatorID now =
          .error "composition not found or not in draft status") := by
  constructor
  · intro c0 hfind
    constructor
    · intro hzero
      simp only [FormComposition, hfind, updatesRun]
      rw [if_pos (by simp [hzero])]
    · intro hpos
      have hne0 : (db.compositor_intervals.filter
          (fun ci => ci.composition_id == id)).length ≠ 0 :=
        Nat.pos_iff_ne_zero.mp hpos
      have hmem : c0 ∈ db.compositions := List.mem_of_find?_eq_some hfind
      have hp := List.find?_some hfind
      simp only [Bool.and_eq_true] at hp
      have hcid : (c0.id == id) = true := hp.1.1
      have hmemf : c0 ∈ db.compositions.filter (fun c => c.id == id) :=
        List.mem_filter.mpr ⟨hmem, hcid⟩
      have hlen : (db.compositions.filter
          (fun c => c.id == id)).length ≠ 0 := by
        have := List.length_pos.mpr (List.ne_nil_of_mem hmemf)
        omega
      simp only [FormComposition, hfind, updatesRun]
      rw [if_neg (by simpa using hne0), if_neg (by simpa using hlen)]
      refine ⟨_, rfl, ?_⟩
      intro c2 hc2 hc2id
      obtain ⟨a, ha, rfl⟩ := List.mem_map.mp hc2
      by_cases hai : (a.id == id) = true
      · rw [if_pos hai, foldl_applyField_form]
        exact ⟨rfl, rfl⟩
      · rw [if_neg hai] at hc2id
        exact absurd (by simpa using hc2id) (by simpa using hai)
  · intro hall
    have hnone : db.compositions.find?
        (fun c => c.id == id && c.creator_id == creatorID &&
          c.status == "Черновик") = none := by
      apply List.find?_eq_none.mpr
      intro c hc
      have hnc := hall c hc
      simp only [Bool.and_eq_true, beq_iff_eq, not_and]
      intro h1 h2
      exact hnc ⟨h1.1, h1.2, h2⟩
    simp only [FormComposition, hnone]

/-- The draft table with no associated items. -/
def dbDraftNoItems : DB :=
  { dbDraft with compositor_intervals := [] }

/-- Witness for C2: with one item (amount 1) the draft forms and becomes
`Сформирована`; with zero items it errors; on the formed table it errors
with the not-in-draft message. -/
theorem C2_form_composition_witness :
    (∃ db2, FormComposition dbDraft 1 10 33 = .ok db2 ∧
      ∀ c2 ∈ db2.compositions, c2.id = 1 →
        c2.status = "Сформирована" ∧ c2.date_finish = none)
    ∧ FormComposition dbDraftNoItems 1 10 33 =
        .error "at least one interval must be added to the composition"
    ∧ FormComposition dbFormed 1 10 33 =
        .error "composition not found or not in draft status" :=
  ⟨((C2_form_composition dbDraft 1 10 33).1 compDraft rfl).2 (by decide),
   ((C2_form_composition dbDraftNoItems 1 10 33).1 compDraft rfl).1 (by decide),
   (C2_form_composition dbFormed 1 10 33).2 (by decide)⟩

/-! ## C7 -/

/-- The table after the callback wrote classification `r` into the
composition with the given id and stamped `date_update`: exactly those
two fields of exactly that row change. -/
def belongingUpdate (db : DB) (id : Nat) (r : String) (now : Nat) : DB :=
  { db with compositions := db.compositions.map (fun c =>
      if c.id == id then { c with belonging := r, date_update := now }
      else c) }

lemma update_belonging_ok (db : DB) (id : Nat) (r : String) (now : Nat)
    (hlen : (db.compositions.filter (fun c => c.id == id)).length ≠ 0) :
    UpdateCompositionFields db id [("belonging", .vstr r)] now =
      .ok (belongingUpdate db id r now) := by
  simp only [UpdateCompositionFields, updatesRun, belongingUpdate]
  rw [if_neg (by simpa using hlen)]
  have hred : ([(("belonging" : String), FieldValue.vstr r)].filter
      (fun kv => kv.1 ≠ "id" && kv.1 ≠ "creator_id" && kv.1 ≠ "date_create"))
      ++ [("date_update", FieldValue.vtime now)] =
      [("belonging", FieldValue.vstr r),
       ("date_update", FieldValue.vtime now)] := rfl
  rw [hred]
  have hmap : db.compositions.map (fun c => if (c.id == id) = true then
        ([(("belonging" : String), FieldValue.vstr r),
          ("date_update", FieldValue.vtime now)]).foldl applyField c
      else c) =
      db.compositions.map (fun c => if (c.id == id) = true then
        { c with belonging := r, date_update := now } else c) := by
    apply List.map_congr_left
    intro a _
    by_cases hai : (a.id == id) = true
    · rw [if_pos hai, if_pos hai]
      rfl
    · rw [if_neg hai, if_neg hai]
  rw [hmap]

lemma filter_id_length_ne_zero (db : DB) (id : Nat)
    (hex : ∃ c ∈ db.compositions, c.id = id) :
    (db.compositions.filter (fun c => c.id == id)).length ≠ 0 := by
  obtain ⟨c, hc, hcid⟩ := hex
  have hmemf : c ∈ db.compositions.filter (fun c => c.id == id) :=
    List.mem_filter.mpr ⟨hc, by simpa using hcid⟩
  have := List.length_pos.mpr (List.ne_nil_of_mem hmemf)
  omega

lemma receive_success (db : DB)
    (req : CompositionHandler.CalculationResultRequest) (now : Nat)
    (hkey : req.APIKey = "SECRET123")
    (hres : req.Result = "принадлежит" ∨ req.Result = "не принадлежит")
    (hex : ∃ c ∈ db.compositions, c.id = req.CompositionID) :
    CompositionHandler.ReceiveCalculationResult db req now =
      (.okResult req.CompositionID req.Result,
       belongingUpdate db req.CompositionID req.Result now) := by
  have hlen := filter_id_length_ne_zero db req.CompositionID hex
  obtain ⟨c, hc, hcid⟩ := hex
  have hfind : (db.compositions.find?
      (fun c => c.id == req.CompositionID)).isSome := by
    rw [List.find?_isSome]
    exact ⟨c, hc, by simpa using hcid⟩
  obtain ⟨c0, hc0⟩ := Option.isSome_iff_exists.mp hfind
  simp only [CompositionHandler.ReceiveCalculationResult]
  rw [if_neg (by simp [hkey])]
  rw [if_neg (by rcases hres with h | h <;> simp [h])]
  simp only [GetComposition, hc0]
  rw [update_belonging_ok db req.CompositionID req.Result now hlen]

/-- C7: the calculation callback (a) rejects a wrong shared secret as
Unauthorized whatever the rest of the payload; (b) returns NotFound and
leaves the table untouched when the composition id is unknown (with
correct secret and a valid result string); (c) on success updates only
`belonging` and `date_update` of the named composition; and (d) is
idempotent: repeating the identical callback on the updated table
returns the same success and the same table. -/
theorem C7_receive_result (db : DB)
    (req : CompositionHandler.CalculationResultRequest) (now : Nat) :
    (req.APIKey ≠ "SECRET123" →
      CompositionHandler.ReceiveCalculationResult db req now =
        (.unauthorizedKey "Неверный API ключ", db))
    ∧ (req.APIKey = "SECRET123" →
       (req.Result = "принадлежит" ∨ req.Result = "не принадлежит") →
       (∀ c ∈ db.compositions, c.id ≠ req.CompositionID) →
        CompositionHandler.ReceiveCalculationResult db req now =
          (.notFound "Композиция не найдена", db))
    ∧ (req.APIKey = "SECRET123" →
       (req.Result = "принадлежит" ∨ req.Result = "не принадлежит") →
       (∃ c ∈ db.compositions, c.id = req.CompositionID) →
        CompositionHandler.ReceiveCalculationResult db req now =
          (.okResult req.CompositionID req.Result,
           belongingUpdate db req.CompositionID req.Result now)
        ∧ CompositionHandler.ReceiveCalculationResult
            (belongingUpdate db req.CompositionID req.Result now) req now =
          (.okResult req.CompositionID req.Result,
           belongingUpdate db req.CompositionID req.Result now)) := by
  refine ⟨?_, ?_, ?_⟩
  · intro hkey
    simp only [CompositionHandler.ReceiveCalculationResult]
    rw [if_pos hkey]
  · intro hkey hres hall
    have hnone : db.compositions.find?
        (fun c => c.id == req.CompositionID) = none := by
      apply List.find?_eq_none.mpr
      intro c hc
      simpa using hall c hc
    simp only [CompositionHandler.ReceiveCalculationResult]
    rw [if_neg (by simp [hkey])]
    rw [if_neg (by rcases hres with h | h <;> simp [h])]
    simp only [GetComposition, hnone]
  · intro hkey hres hex
    have h1 := receive_success db req now hkey hres hex
    obtain ⟨c, hc, hcid⟩ := hex
    have hex2 : ∃ c2 ∈ (belongingUpdate db req.CompositionID req.Result
        now).compositions, c2.id = req.CompositionID := by
      exact ⟨_, List.mem_map_of_mem _ hc, by simp [hcid]⟩
    have h2 := receive_success _ req now hkey hres hex2
    have hidem : belongingUpdate
        (belongingUpdate db req.CompositionID req.Result now)
        req.CompositionID req.Result now =
        belongingUpdate db req.CompositionID req.Result now := by
      simp only [belongingUpdate, List.map_map]
      have hmap2 : ∀ a ∈ db.compositions,
          ((fun c => if (c.id == req.CompositionID) = true then
              { c with belonging := req.Result, date_update := now }
            else c) ∘
           (fun c => if (c.id == req.CompositionID) = true then
              { c with belonging := req.Result, date_update := now }
            else c)) a =
          (fun c => if (c.id == req.CompositionID) = true then
              { c with belonging := req.Result, date_update := now }
            else c) a := by
        intro a _
        simp only [Function.comp_apply]
        by_cases hai : (a.id == req.CompositionID) = true
        · have h2a : (({ a with belonging := req.Result, date_update := now }
              : Composition).id == req.CompositionID) = true := hai
          rw [if_pos hai, if_pos h2a]
        · rw [if_neg hai, if_neg hai]
      rw [List.map_congr_left hmap2]
    rw [hidem] at h2
    exact ⟨h1, h2⟩

/-- Witness for C7: a wrong key is rejected on the concrete table; an
unknown id yields NotFound with the table unchanged; the valid callback
on composition 1 succeeds and its repetition returns the same table. -/
theorem C7_receive_result_witness :
    (CompositionHandler.ReceiveCalculationResult dbDraft
        ⟨1, "принадлежит", "WRONG"⟩ 44 =
      (.unauthorizedKey "Неверный API ключ", dbDraft))
    ∧ (CompositionHandler.ReceiveCalculationResult dbDraft
        ⟨5, "принадлежит", "SECRET123"⟩ 44 =
      (.notFound "Композиция не найдена", dbDraft))
    ∧ (CompositionHandler.ReceiveCalculationResult dbDraft
        ⟨1, "принадлежит", "SECRET123"⟩ 44 =
      (.okResult 1 "принадлежит", belongingUpdate dbDraft 1 "принадлежит" 44)
      ∧ CompositionHandler.ReceiveCalculationResult
          (belongingUpdate dbDraft 1 "принадлежит" 44)
          ⟨1, "принадлежит", "SECRET123"⟩ 44 =
        (.okResult 1 "принадлежит",
         belongingUpdate dbDraft 1 "принадлежит" 44)) :=
  ⟨(C7_receive_result dbDraft ⟨1, "принадлежит", "WRONG"⟩ 44).1 (by decide),
   (C7_receive_result dbDraft ⟨5, "принадлежит", "SECRET123"⟩ 44).2.1 rfl
     (Or.inl rfl) (by decide),
   (C7_receive_result dbDraft ⟨1, "принадлежит", "SECRET123"⟩ 44).2.2 rfl
     (Or.inl rfl) ⟨compDraft, by decide, rfl⟩⟩

/-! ## C9 -/

lemma foldl_add_map_sum {α M : Type} [AddCommMonoid M] (f : α → M)
    (l : List α) (a : M) :
    l.foldl (fun acc it => acc + f it) a = a + (l.map f).sum := by
  induction l generalizing a with
  | nil => simp
  | cons x l ih => simp [ih, add_assoc]

/-- The items of a composition (the rows `calculateClassicismCoefficient`
loads). -/
def itemsOf (db : DB) (cid : Nat) : List CompositorInterval :=
  db.compositor_intervals.filter (fun ci => ci.composition_id == cid)

/-- `Σ amount_i` over a composition's items. -/
def totalAmount (db : DB) (cid : Nat) : Nat :=
  ((itemsOf db cid).map (fun it => it.amount)).sum

/-- `Σ (tone_i × amount_i)` over a composition's items. -/
def weightedToneSum (db : DB) (cid : Nat) : ℚ :=
  ((itemsOf db cid).map (fun it => intervalTone db it * (it.amount : ℚ))).sum

lemma itemsOf_def (db : DB) (cid : Nat) :
    db.compositor_intervals.filter (fun ci => ci.composition_id == cid) =
      itemsOf db cid := rfl

lemma totalAmount_def (db : DB) (cid : Nat) :
    ((itemsOf db cid).map (fun it => it.amount)).sum = totalAmount db cid :=
  rfl

lemma weightedToneSum_def (db : DB) (cid : Nat) :
    ((itemsOf db cid).map
      (fun it => intervalTone db it * (it.amount : ℚ))).sum =
      weightedToneSum db cid := rfl

/-- The classicism example table: composition 1 holds interval 1
(tone 2.0) with amount 2 and interval 2 (tone 4.0) with amount 1. -/
def dbC9 : DB :=
  { compositions := []
    compositor_intervals := [⟨1, 1, 2⟩, ⟨1, 2, 1⟩]
    intervals := [⟨1, false, "", "i1", "", 2⟩, ⟨2, false, "", "i2", "", 4⟩] }

/-- C9: over the items of a composition whose amounts have positive sum,
the classicism helper returns exactly
`(1 / (1 + |μ − 2.82|), μ)` with `μ = Σ(tone_i × amount_i) / Σ(amount_i)`
and the score lies in `(0, 1]`; with no items it returns `(0, 0)`; and on
the concrete example items `{tone=2, amount=2}, {tone=4, amount=1}` it
yields `μ = 8/3` (≈ 2.667) and `S = 150/173` (≈ 0.867). -/
theorem C9_classicism_affinity (db : DB) (cid : Nat) :
    (0 < totalAmount db cid →
      calculateClassicismCoefficient db cid =
        (1 / (1 + |weightedToneSum db cid / (totalAmount db cid : ℚ) -
            282 / 100|),
         weightedToneSum db cid / (totalAmount db cid : ℚ))
      ∧ 0 < (calculateClassicismCoefficient db cid).1
      ∧ (calculateClassicismCoefficient db cid).1 ≤ 1)
    ∧ (itemsOf db cid = [] → calculateClassicismCoefficient db cid = (0, 0))
    ∧ calculateClassicismCoefficient dbC9 1 = (150 / 173, 8 / 3) := by
  refine ⟨?_, ?_, ?_⟩
  · intro hpos
    have hne : itemsOf db cid ≠ [] := by
      intro h0
      rw [totalAmount, h0] at hpos
      simp at hpos
    have hlen : ((itemsOf db cid).length == 0) = false := by
      simp [List.length_eq_zero]
      exact hne
    have hAne : totalAmount db cid ≠ 0 := by omega
    have heq : calculateClassicismCoefficient db cid =
        (1 / (1 + |weightedToneSum db cid / (totalAmount db cid : ℚ) -
            282 / 100|),
         weightedToneSum db cid / (totalAmount db cid : ℚ)) := by
      simp only [calculateClassicismCoefficient]
      rw [itemsOf_def]
      rw [if_neg (by simp [hlen])]
      rw [foldl_add_map_sum
          (fun it : CompositorInterval => intervalTone db it * (it.amount : ℚ)),
        foldl_add_map_sum (fun it : CompositorInterval => it.amount),
        zero_add, zero_add, totalAmount_def, weightedToneSum_def]
      rw [if_neg (by simpa using hAne)]
    have habs : (0 : ℚ) ≤
        |weightedToneSum db cid / (totalAmount db cid : ℚ) - 282 / 100| :=
      abs_nonneg _
    have hden : (0 : ℚ) <
        1 + |weightedToneSum db cid / (totalAmount db cid : ℚ) - 282 / 100| :=
      by linarith
    refine ⟨heq, ?_, ?_⟩
    · rw [heq]
      exact one_div_pos.mpr hden
    · rw [heq]
      exact div_le_one_of_le₀ (by linarith) (le_of_lt hden)
  · intro h0
    rw [itemsOf] at h0
    simp [calculateClassicismCoefficient, h0]
  · have h1 : calculateClassicismCoefficient dbC9 1 =
        (1 / (1 + |(8 : ℚ) / 3 - 282 / 100|), (8 : ℚ) / 3) := by
      simp only [calculateClassicismCoefficient, dbC9]
      norm_num [List.filter, List.foldl, intervalTone, List.find?,
        show ((1 : Nat) == 2) = false from rfl]
    rw [h1, abs_of_neg (by norm_num)]
    norm_num

/-- Witness for C9: the example items have positive total amount and the
formula instance and bounds hold there. -/
theorem C9_classicism_affinity_witness :
    0 < totalAmount dbC9 1
    ∧ (calculateClassicismCoefficient dbC9 1 =
        (1 / (1 + |weightedToneSum dbC9 1 / (totalAmount dbC9 1 : ℚ) -
            282 / 100|),
         weightedToneSum dbC9 1 / (totalAmount dbC9 1 : ℚ))
      ∧ 0 < (calculateClassicismCoefficient dbC9 1).1
      ∧ (calculateClassicismCoefficient dbC9 1).1 ≤ 1) :=
  ⟨by decide, (C9_classicism_affinity dbC9 1).1 (by decide)⟩

/-! ## C10 -/

/-- C10: the interval listing never returns more than 8 rows per page,
returns only rows with `is_delete = false`, reports page size 8 whenever
the requested size is below 1 or above 8, clamps the page number up to
1, and the handler treats an absent page-size query as 8. -/
theorem C10_interval_pagination (db : DB) (title : String)
    (toneMin toneMax : ℚ) (page pageSize : Int) :
    (IntervalRepository.GetIntervals db title toneMin toneMax page
        pageSize).1.length ≤ 8
    ∧ (∀ iv ∈ (IntervalRepository.GetIntervals db title toneMin toneMax
        page pageSize).1, iv.is_delete = false)
    ∧ (pageSize ≤ 0 →
        (IntervalRepository.GetIntervals db title toneMin toneMax page
          pageSize).2.PageSize = 8)
    ∧ (8 < pageSize →
        (IntervalRepository.GetIntervals db title toneMin toneMax page
          pageSize).2.PageSize = 8)
    ∧ (page < 1 →
        (IntervalRepository.GetIntervals db title toneMin toneMax page
          pageSize).2.Page = 1)
    ∧ (∀ pq : Option Int,
        (IntervalHandler.GetIntervals db title toneMin toneMax pq
          none).2.PageSize = 8) := by
  refine ⟨?_, ?_, ?_, ?_, ?_, ?_⟩
  · simp only [IntervalRepository.GetIntervals]
    rw [List.length_take]
    have h8 : (if (if pageSize ≤ 0 then (8 : Int) else pageSize) > 8 then 8
        else if pageSize ≤ 0 then (8 : Int) else pageSize) ≤ 8 := by
      split_ifs <;> omega
    exact le_trans (min_le_left _ _) (Int.toNat_le.mpr h8)
  · intro iv hm
    simp only [IntervalRepository.GetIntervals] at hm
    have hm2 := List.mem_of_mem_drop (List.mem_of_mem_take hm)
    have hq := (List.mem_filter.mp hm2).2
    simp only [Bool.and_eq_true] at hq
    simpa using hq.1.1.1
  · intro h
    simp only [IntervalRepository.GetIntervals]
    split_ifs <;> omega
  · intro h
    simp only [IntervalRepository.GetIntervals]
    split_ifs <;> omega
  · intro h
    simp only [IntervalRepository.GetIntervals]
    rw [if_pos h]
  · intro pq
    rfl

/-- Witness for C10: with a requested page -3 and page size 100 on a
concrete table, the returned page reports page 1 and size 8. -/
theorem C10_interval_pagination_witness :
    ((-3 : Int) < 1 ∧ (8 : Int) < 100)
    ∧ (IntervalRepository.GetIntervals dbC9 "" 0 0 (-3) 100).2.Page = 1
    ∧ (IntervalRepository.GetIntervals dbC9 "" 0 0 (-3) 100).2.PageSize = 8
    ∧ (IntervalHandler.GetIntervals dbC9 "" 0 0 none none).2.PageSize = 8 :=
  ⟨⟨by decide, by decide⟩,
   (C10_interval_pagination dbC9 "" 0 0 (-3) 100).2.2.2.2.1 (by decide),
   (C10_interval_pagination dbC9 "" 0 0 (-3) 100).2.2.2.1 (by decide),
   (C10_interval_pagination dbC9 "" 0 0 (-3) 100).2.2.2.2.2 none⟩

end BackendRIP
